import Mathlib

/-!
Verification of the per-learner goal-scoped memory store of the KiddleMentor
repository: `gen_mentor/core/memory/memory_store.py` (MemoryStore,
LearnerMemoryStore), the learner repository facade
(`apps/backend/repositories/learner_repository.py`), and the user registry
(`apps/backend/services/user_registry.py`).

The embedding models JSON documents as a tree type `JVal` whose objects are
insertion-ordered association lists (mirroring Python dict semantics: key
assignment updates in place if present, otherwise appends at the end).  A
file on disk is modelled by `FileCond`: absent, holding a decodable JSON
value, holding undecodable bytes, or raising an I/O error when opened.
Python exceptions are modelled with `Except PyErr`.
-/

/-- JSON-compatible tree; objects keep insertion order like Python dicts. -/
inductive JVal where
  | null : JVal
  | bool (b : Bool) : JVal
  | num (n : Int) : JVal
  | str (s : String) : JVal
  | arr (items : List JVal) : JVal
  | obj (fields : List (String × JVal)) : JVal
deriving Repr

mutual

/-- Python `==` on JSON-compatible values (structural equality). -/
def jvalEq : JVal → JVal → Bool
  | .null, .null => true
  | .bool a, .bool b => a == b
  | .num a, .num b => a == b
  | .str a, .str b => a == b
  | .arr xs, .arr ys => jvalEqList xs ys
  | .obj xs, .obj ys => jvalEqFields xs ys
  | _, _ => false

def jvalEqList : List JVal → List JVal → Bool
  | [], [] => true
  | x :: xs, y :: ys => jvalEq x y && jvalEqList xs ys
  | _, _ => false

def jvalEqFields : List (String × JVal) → List (String × JVal) → Bool
  | [], [] => true
  | (k, v) :: xs, (k', v') :: ys => k == k' && jvalEq v v' && jvalEqFields xs ys
  | _, _ => false

end

/-- Python dict lookup on an insertion-ordered field list. -/
def jGet : List (String × JVal) → String → Option JVal
  | [], _ => none
  | (k', v) :: rest, k => if k' = k then some v else jGet rest k

/-- Python dict assignment `d[k] = v`: replace in place if the key exists,
otherwise append at the end (insertion order preserved). -/
def jSet : List (String × JVal) → String → JVal → List (String × JVal)
  | [], k, v => [(k, v)]
  | (k', v') :: rest, k, v =>
      if k' = k then (k, v) :: rest else (k', v') :: jSet rest k v

/-- Python truthiness of a JSON-compatible value. -/
def jTruthy : JVal → Bool
  | .null => false
  | .bool b => b
  | .num n => n != 0
  | .str s => s != ""
  | .arr xs => !xs.isEmpty
  | .obj fs => !fs.isEmpty

/-- Python exception classes relevant to the store. -/
inductive PyErr where
  | ioError : PyErr
  | typeError : PyErr
  | attributeError : PyErr
deriving Repr, DecidableEq

/-- Condition of one backing file on disk. -/
inductive FileCond where
  | absent : FileCond
  | content (v : JVal) : FileCond
  | badJson : FileCond
  | ioErr : FileCond
deriving Repr

/-- The shared reader pattern of `read_profile` / `read_learning_goals` /
`read_skill_gaps` / `read_mastery` / `read_learning_path`: if the file
exists, `open` it and `json.load`; `except json.JSONDecodeError: return {}`.
An I/O failure at open/read is not caught and propagates. -/
def readJsonDoc : FileCond → Except PyErr JVal
  | .absent => .ok (.obj [])
  | .content v => .ok v
  | .badJson => .ok (.obj [])
  | .ioErr => .error .ioError

/-- `MemoryStore.read_history`: same pattern but the sentinel is `[]` and the
except clause is `(json.JSONDecodeError, IOError)`, so I/O errors are
swallowed too. -/
def readHistoryDoc : FileCond → Except PyErr JVal
  | .absent => .ok (.arr [])
  | .content v => .ok v
  | .badJson => .ok (.arr [])
  | .ioErr => .ok (.arr [])

/-- The per-learner file tree of a learner-scoped `LearnerMemoryStore`
(constructed with a `learner_id`, so all learner file attributes exist). -/
structure LearnerFiles where
  profile : FileCond
  learning_goal : FileCond
  skill_gaps : FileCond
  mastery : FileCond
  learning_path : FileCond
  chat_history : FileCond
deriving Repr

def read_profile (s : LearnerFiles) : Except PyErr JVal := readJsonDoc s.profile

def read_learning_goals (s : LearnerFiles) : Except PyErr JVal :=
  readJsonDoc s.learning_goal

def read_skill_gaps (s : LearnerFiles) : Except PyErr JVal :=
  readJsonDoc s.skill_gaps

def read_mastery (s : LearnerFiles) : Except PyErr JVal := readJsonDoc s.mastery

def read_learning_path (s : LearnerFiles) : Except PyErr JVal :=
  readJsonDoc s.learning_path

def read_history (s : LearnerFiles) : Except PyErr JVal :=
  readHistoryDoc s.chat_history

/-- `write_profile`: `json.dump` of the document replaces the whole file. -/
def write_profile (s : LearnerFiles) (d : JVal) : LearnerFiles :=
  { s with profile := .content d }

def write_learning_goals (s : LearnerFiles) (d : JVal) : LearnerFiles :=
  { s with learning_goal := .content d }

def write_skill_gaps (s : LearnerFiles) (d : JVal) : LearnerFiles :=
  { s with skill_gaps := .content d }

def write_mastery (s : LearnerFiles) (d : JVal) : LearnerFiles :=
  { s with mastery := .content d }

def write_learning_path (s : LearnerFiles) (d : JVal) : LearnerFiles :=
  { s with learning_path := .content d }

def write_history (s : LearnerFiles) (d : JVal) : LearnerFiles :=
  { s with chat_history := .content d }

-- ## Goal ledger (`add_goal`)

/-- Inputs `add_goal` draws from the environment: the freshly generated
`goal_<date>_<hex>` id and `datetime.now().isoformat()`, plus the caller's
arguments. -/
structure GoalInput where
  goal_id : String
  now : String
  learning_goal : String
  refined_goal : JVal
deriving Repr

/-- The fresh record built in `add_goal` (field insertion order as in the
source; `created_at` and `updated_at` use the same timestamp). -/
def newGoalRecord (inp : GoalInput) : JVal :=
  .obj [("goal_id", .str inp.goal_id),
        ("learning_goal", .str inp.learning_goal),
        ("refined_goal", inp.refined_goal),
        ("status", .str "active"),
        ("created_at", .str inp.now),
        ("updated_at", .str inp.now)]

/-- One iteration of the deactivation loop in `add_goal`:
`if g.get("status") == "active": g["status"] = "inactive"`.
`.get` on a non-mapping record raises `AttributeError`. -/
def deactivateGoal : JVal → Except PyErr JVal
  | .obj fs =>
      .ok (if jvalEq ((jGet fs "status").getD .null) (.str "active")
           then .obj (jSet fs "status" (.str "inactive")) else .obj fs)
  | _ => .error .attributeError

/-- The deactivation loop of `add_goal` over the whole `goals` list, in
order. -/
def deactivateAll : List JVal → Except PyErr (List JVal)
  | [] => .ok []
  | g :: rest =>
      match deactivateGoal g with
      | .ok g' =>
          match deactivateAll rest with
          | .ok rest' => .ok (g' :: rest')
          | .error e => .error e
      | .error e => .error e

/-- The pure transformation `add_goal` applies to the decoded
`learning_goal.json` document between its read and its write. -/
def addGoalData (goals_data : JVal) (inp : GoalInput) : Except PyErr JVal :=
  match goals_data with
  | .obj fs0 =>
      let fs := if (jGet fs0 "goals").isSome then fs0
                else jSet fs0 "goals" (.arr [])
      match jGet fs "goals" with
      | some (.arr goals) =>
          match deactivateAll goals with
          | .ok goals' =>
              let fs := jSet fs "goals" (.arr (goals' ++ [newGoalRecord inp]))
              let fs := jSet fs "active_goal_id" (.str inp.goal_id)
              .ok (.obj fs)
          | .error e => .error e
      | _ => .error .typeError
  | _ => .error .typeError

/-- `LearnerMemoryStore.add_goal`: read the ledger, deactivate every
previously active record, append the fresh active record, set the
`active_goal_id` pointer, persist, return the new id. -/
def add_goal (s : LearnerFiles) (inp : GoalInput) :
    Except PyErr (LearnerFiles × String) :=
  match read_learning_goals s with
  | .ok goals_data =>
      match addGoalData goals_data inp with
      | .ok goals_data' =>
          .ok (write_learning_goals s goals_data', inp.goal_id)
      | .error e => .error e
  | .error e => .error e

/-- A sequence of `add_goal` calls, threading the store state. -/
def runAddGoals (s : LearnerFiles) : List GoalInput → Except PyErr LearnerFiles
  | [] => .ok s
  | inp :: rest =>
      match add_goal s inp with
      | .ok (s', _) => runAddGoals s' rest
      | .error e => .error e

-- ## Goal-scoped side tables

/-- `read_skill_gaps_for_goal`: `self.read_skill_gaps().get(goal_id, {})`. -/
def read_skill_gaps_for_goal (s : LearnerFiles) (goal_id : String) :
    Except PyErr JVal :=
  match read_skill_gaps s with
  | .ok (.obj fs) => .ok ((jGet fs goal_id).getD (.obj []))
  | .ok _ => .error .attributeError
  | .error e => .error e

/-- `write_skill_gaps_for_goal`: read-modify-write of the whole file; stamps
`data["updated_at"] = datetime.now().isoformat()` before storing under
`goal_id`. -/
def write_skill_gaps_for_goal (s : LearnerFiles) (goal_id : String)
    (data : JVal) (now : String) : Except PyErr LearnerFiles :=
  match read_skill_gaps s, data with
  | .ok (.obj fs), .obj dataFields =>
      .ok (write_skill_gaps s (.obj (jSet fs goal_id
        (.obj (jSet dataFields "updated_at" (.str now))))))
  | .error e, _ => .error e
  | .ok _, _ => .error .typeError

/-- `read_learning_path_for_goal`: `self.read_learning_path().get(goal_id, {})`. -/
def read_learning_path_for_goal (s : LearnerFiles) (goal_id : String) :
    Except PyErr JVal :=
  match read_learning_path s with
  | .ok (.obj fs) => .ok ((jGet fs goal_id).getD (.obj []))
  | .ok _ => .error .attributeError
  | .error e => .error e

/-- `write_learning_path_for_goal`: same read-modify-write pattern on
`learning_path.json`. -/
def write_learning_path_for_goal (s : LearnerFiles) (goal_id : String)
    (data : JVal) (now : String) : Except PyErr LearnerFiles :=
  match read_learning_path s, data with
  | .ok (.obj fs), .obj dataFields =>
      .ok (write_learning_path s (.obj (jSet fs goal_id
        (.obj (jSet dataFields "updated_at" (.str now))))))
  | .error e, _ => .error e
  | .ok _, _ => .error .typeError

-- ## Append-only logs

/-- The entry `append_history` builds: role, content, generated timestamp,
and `metadata` only when truthy (`if metadata:`). -/
def historyEntry (role content : String) (metadata : JVal) (now : String) :
    JVal :=
  let entryFields : List (String × JVal) :=
    [("role", .str role), ("content", .str content), ("timestamp", .str now)]
  if jTruthy metadata then .obj (jSet entryFields "metadata" metadata)
  else .obj entryFields

/-- `if 'timestamp' not in d: d['timestamp'] = now` on an object's fields
(shared by `append_mastery_entry` and `update_evaluations`). -/
def stampTimestamp (fs : List (String × JVal)) (now : String) : JVal :=
  if (jGet fs "timestamp").isSome then .obj fs
  else .obj (jSet fs "timestamp" (.str now))

/-- `MemoryStore.append_history`: read the whole log, append one entry with a
generated timestamp (`metadata` only included when truthy), write back. -/
def append_history (s : LearnerFiles) (role content : String) (metadata : JVal)
    (now : String) : Except PyErr LearnerFiles :=
  match read_history s with
  | .ok (.arr hs) =>
      .ok (write_history s (.arr (hs ++ [historyEntry role content metadata now])))
  | .ok _ => .error .attributeError
  | .error e => .error e

/-- `append_mastery_entry`: read `mastery.json`, default `entries` to `[]`,
inject `timestamp` into the entry if absent, append, write back. -/
def append_mastery_entry (s : LearnerFiles) (entry : JVal) (now : String) :
    Except PyErr LearnerFiles :=
  match read_mastery s, entry with
  | .ok (.obj efs0), .obj entryFields =>
      let efs := if (jGet efs0 "entries").isSome then efs0
                 else jSet efs0 "entries" (.arr [])
      match jGet efs "entries" with
      | some (.arr es) =>
          .ok (write_mastery s (.obj (jSet efs "entries"
            (.arr (es ++ [stampTimestamp entryFields now])))))
      | _ => .error .attributeError
  | .error e, _ => .error e
  | .ok _, _ => .error .typeError

/-- `update_evaluations`: sets `last_evaluation` to the evaluation object
itself, while a *copy* (with a timestamp injected if absent) is appended to
`evaluations_history`. -/
def update_evaluations (s : LearnerFiles) (evaluation : JVal) (now : String) :
    Except PyErr LearnerFiles :=
  match read_mastery s with
  | .ok (.obj efs0) =>
      let efs := jSet efs0 "last_evaluation" evaluation
      let efs := if (jGet efs "evaluations_history").isSome then efs
                 else jSet efs "evaluations_history" (.arr [])
      match evaluation with
      | .obj evalFields =>
          match jGet efs "evaluations_history" with
          | some (.arr hs) =>
              .ok (write_mastery s
                (.obj (jSet efs "evaluations_history"
                  (.arr (hs ++ [stampTimestamp evalFields now])))))
          | _ => .error .attributeError
      | _ => .error .attributeError
  | .ok _ => .error .typeError
  | .error e => .error e

-- ## History search

/-- Whether `needle` occurs at the head of `hay`. -/
def startsList : List Char → List Char → Bool
  | [], _ => true
  | _ :: _, [] => false
  | c :: cs, d :: ds => c == d && startsList cs ds

/-- Substring occurrence on character lists. -/
def containsList (hay needle : List Char) : Bool :=
  match hay with
  | [] => needle.isEmpty
  | _ :: t => startsList needle hay || containsList t needle

/-- Python `needle in hay` on strings. -/
def strContainsSub (hay needle : String) : Bool :=
  containsList hay.toList needle.toList

/-- `s.startswith(pre)`, computed on character lists. -/
def strStartsWith (s pre : String) : Bool :=
  startsList pre.toList s.toList

/-- The list comprehension of `search_history`:
`[e for e in history if query.lower() in e.get("content", "").lower()]`. -/
def searchLoop (query : String) : List JVal → Except PyErr (List JVal)
  | [] => .ok []
  | e :: rest =>
      match e with
      | .obj fs =>
          match (jGet fs "content").getD (.str "") with
          | .str cs =>
              match searchLoop query rest with
              | .ok r =>
                  .ok (if strContainsSub cs.toLower query.toLower then e :: r
                       else r)
              | .error err => .error err
          | _ => .error .attributeError
      | _ => .error .attributeError

/-- `MemoryStore.search_history`: case-insensitive substring match of the
query against each entry's `content` (default `""`), preserving order. -/
def search_history (s : LearnerFiles) (query : String) :
    Except PyErr (List JVal) :=
  match read_history s with
  | .ok (.arr hs) => searchLoop query hs
  | .ok _ => .error .typeError
  | .error e => .error e


-- ## Learner repository facade (`apps/backend/repositories/learner_repository.py`)

/-- `LearnerRepository.get_profile`: wraps the store read in try/except
returning `None` on any exception; also applies Python truthiness
(`profile if profile else None`). -/
def repo_get_profile (s : LearnerFiles) : Except PyErr (Option JVal) :=
  match read_profile s with
  | .ok v => .ok (if jTruthy v then some v else none)
  | .error _ => .ok none

/-- `LearnerRepository.get_learning_goals` (try/except → `None`). -/
def repo_get_learning_goals (s : LearnerFiles) : Except PyErr (Option JVal) :=
  match read_learning_goals s with
  | .ok v => .ok (if jTruthy v then some v else none)
  | .error _ => .ok none

/-- `LearnerRepository.get_skill_gaps` (try/except → `None`). -/
def repo_get_skill_gaps (s : LearnerFiles) : Except PyErr (Option JVal) :=
  match read_skill_gaps s with
  | .ok v => .ok (if jTruthy v then some v else none)
  | .error _ => .ok none

/-- `LearnerRepository.get_learning_path` (try/except → `None`). -/
def repo_get_learning_path (s : LearnerFiles) : Except PyErr (Option JVal) :=
  match read_learning_path s with
  | .ok v => .ok (if jTruthy v then some v else none)
  | .error _ => .ok none

/-- `LearnerRepository.get_mastery` (try/except → `None`). -/
def repo_get_mastery (s : LearnerFiles) : Except PyErr (Option JVal) :=
  match read_mastery s with
  | .ok v => .ok (if jTruthy v then some v else none)
  | .error _ => .ok none

/-- `LearnerRepository.get_history`: try/except → `[]`; truncates to the last
`limit` entries when `limit > 0`. -/
def repo_get_history (s : LearnerFiles) (limit : Nat) :
    Except PyErr (List JVal) :=
  match read_history s with
  | .ok (.arr xs) =>
      .ok (if 0 < limit ∧ limit < xs.length then xs.drop (xs.length - limit)
           else xs)
  | .ok _ => .ok []
  | .error _ => .ok []

/-- `LearnerRepository.get_skill_gaps_for_goal`: delegates to the store with
no try/except around the call. -/
def repo_get_skill_gaps_for_goal (s : LearnerFiles) (goal_id : String) :
    Except PyErr JVal :=
  read_skill_gaps_for_goal s goal_id

/-- `LearnerRepository.get_learning_path_for_goal`: delegates to the store
with no try/except around the call. -/
def repo_get_learning_path_for_goal (s : LearnerFiles) (goal_id : String) :
    Except PyErr JVal :=
  read_learning_path_for_goal s goal_id

/-- `LearnerRepository.search_history`: delegates to the store with no
try/except around the call. -/
def repo_search_history (s : LearnerFiles) (query : String) :
    Except PyErr (List JVal) :=
  search_history s query

-- ## User registry (`apps/backend/services/user_registry.py`)

/-- One entry of the workspace's `memory/` directory listing: its name,
whether it is a directory, and the condition of its `profile.json`. -/
structure DirEntry where
  name : String
  isDir : Bool
  profile : FileCond
deriving Repr

/-- Workspace-wide state seen by `UserRegistryService`: the `users.json`
file, whether `memory/` exists, and its directory listing in the sorted
order `sorted(memory_dir.iterdir())` produces. -/
structure Workspace where
  usersFile : FileCond
  memoryExists : Bool
  entries : List DirEntry
deriving Repr

/-- `_load_registry`: parse `users.json`; any failure (absent file, decode
error, I/O error) falls through to `{"users": []}`. -/
def loadRegistry : FileCond → JVal
  | .content v => v
  | _ => .obj [("users", .arr [])]

/-- `list_users`: `self._load_registry().get("users", [])`; `.get` on a
non-mapping registry document raises `AttributeError`. -/
def list_users (ws : Workspace) : Except PyErr JVal :=
  match loadRegistry ws.usersFile with
  | .obj fs => .ok ((jGet fs "users").getD (.arr []))
  | _ => .error .attributeError

/-- The in-place update `register_user` applies to an already registered
user: `u["name"] = name; if email: u["email"] = email`. -/
def updFields (name email : JVal) (fs : List (String × JVal)) :
    List (String × JVal) :=
  let fs := jSet fs "name" name
  if jTruthy email then jSet fs "email" email else fs

/-- The `for u in users` loop of `register_user`: find the first entry whose
`learner_id` equals the argument and update it in place; a non-mapping
element reached before a match raises `AttributeError`. -/
def registerLoop (name email : JVal) :
    List JVal → JVal → Except PyErr (Option (List JVal × JVal))
  | [], _ => .ok none
  | .obj fs :: rest, lid =>
      if jvalEq ((jGet fs "learner_id").getD .null) lid then
        let fs' := updFields name email fs
        .ok (some (.obj fs' :: rest, .obj fs'))
      else
        match registerLoop name email rest lid with
        | .ok (some (rest', u)) => .ok (some (.obj fs :: rest', u))
        | .ok none => .ok none
        | .error e => .error e
  | _ :: _, _ => .error .attributeError

/-- `register_user`: idempotent upsert into `users.json`.  On the update
path the registry document aliases the mutated list; on the append path the
new entry is `{learner_id, name, email, created_at or now}`. -/
def register_user (ws : Workspace) (lid name email created_at : JVal)
    (now : String) : Except PyErr (Workspace × JVal) :=
  match loadRegistry ws.usersFile with
  | .obj rfs =>
      match (jGet rfs "users").getD (.arr []) with
      | .arr usersList =>
          match registerLoop name email usersList lid with
          | .ok (some (users', u)) =>
              let rfs' := if (jGet rfs "users").isSome
                          then jSet rfs "users" (.arr users') else rfs
              .ok ({ ws with usersFile := .content (.obj rfs') }, u)
          | .ok none =>
              let user : JVal :=
                .obj [("learner_id", lid), ("name", name), ("email", email),
                      ("created_at", if jTruthy created_at then created_at
                                     else .str now)]
              let rfs' := jSet rfs "users" (.arr (usersList ++ [user]))
              .ok ({ ws with usersFile := .content (.obj rfs') }, user)
          | .error e => .error e
      | _ => .error .typeError
  | _ => .error .attributeError

/-- The list comprehension of `delete_user`:
`[u for u in users if u.get("learner_id") != learner_id]`. -/
def filterUsers : List JVal → String → Except PyErr (List JVal)
  | [], _ => .ok []
  | .obj fs :: rest, lid =>
      match filterUsers rest lid with
      | .ok r =>
          .ok (if jvalEq ((jGet fs "learner_id").getD .null) (.str lid) then r
               else .obj fs :: r)
      | .error e => .error e
  | _ :: _, _ => .error .attributeError

/-- `delete_user`: drop the entry from the registry; if nothing was dropped
return `False` without saving the registry or touching the learner's memory
directory; otherwise save and recursively delete
`workspace/memory/<learner_id>` when it exists. -/
def delete_user (ws : Workspace) (lid : String) :
    Except PyErr (Workspace × Bool) :=
  match loadRegistry ws.usersFile with
  | .obj rfs =>
      match (jGet rfs "users").getD (.arr []) with
      | .arr usersList =>
          match filterUsers usersList lid with
          | .ok filtered =>
              if filtered.length = usersList.length then .ok (ws, false)
              else
                let rfs' := jSet rfs "users" (.arr filtered)
                let entries' := ws.entries.filter (fun e => e.name != lid)
                let ws' := { ws with usersFile := .content (.obj rfs'),
                                     entries := entries' }
                .ok (ws', true)
          | .error e => .error e
      | _ => .error .typeError
  | _ => .error .attributeError

/-- One iteration of the `sync_from_disk` scan: skip non-directories, names
not starting with `learner_`, and missing profiles; parse `profile.json` and
`register_user` from its fields, any exception being caught by the blanket
`except Exception: continue`.  Returns the updated workspace and the count
increment. -/
def syncEntry (ws : Workspace) (e : DirEntry) (now : String) :
    Workspace × Nat :=
  if !e.isDir || !(strStartsWith e.name "learner_") then (ws, 0)
  else match e.profile with
    | .absent => (ws, 0)
    | .badJson => (ws, 0)
    | .ioErr => (ws, 0)
    | .content p =>
        match p with
        | .obj pfs =>
            let lid := (jGet pfs "learner_id").getD (.str e.name)
            let name := (jGet pfs "name").getD (.str "Anonymous Learner")
            let email := (jGet pfs "email").getD .null
            let created := (jGet pfs "created_at").getD .null
            match register_user ws lid name email created now with
            | .ok (ws', _) => (ws', 1)
            | .error _ => (ws, 0)
        | _ => (ws, 0)

/-- One fold step of the `sync_from_disk` scan: thread the workspace and
add the count increment. -/
def syncStep (now : String) (acc : Workspace × Nat) (e : DirEntry) :
    Workspace × Nat :=
  let (w', d) := syncEntry acc.1 e now
  (w', acc.2 + d)

/-- `sync_from_disk`: scan the sorted `memory/` listing, upserting one
registry entry per learner-looking directory with a readable profile;
returns the count synced. -/
def sync_from_disk (ws : Workspace) (now : String) : Workspace × Nat :=
  if ws.memoryExists then ws.entries.foldl (syncStep now) (ws, 0)
  else (ws, 0)

-- ## Goal ledger invariant

/-- A goal record's status check `g.get("status") == "active"`. -/
def isActive (g : JVal) : Bool :=
  match g with
  | .obj fs => jvalEq ((jGet fs "status").getD .null) (.str "active")
  | _ => false

/-- A goal record's `goal_id` field. -/
def goalIdOf (g : JVal) : Option JVal :=
  match g with
  | .obj fs => jGet fs "goal_id"
  | _ => none

/-- The single-active-goal invariant of a decoded `learning_goal.json`
document: exactly one record has status `"active"`, it is the last (most
recently appended) record, and `active_goal_id` equals its `goal_id`. -/
def ledgerOK (gd : JVal) : Bool :=
  match gd with
  | .obj fs =>
      match jGet fs "goals", jGet fs "active_goal_id" with
      | some (.arr gs), some aid =>
          (gs.filter isActive).length == 1 &&
          (match gs.getLast? with
           | some g => isActive g && (match goalIdOf g with
                                      | some v => jvalEq v aid
                                      | none => false)
           | none => false)
      | _, _ => false
  | _ => false

def goalIsObj : JVal → Bool
  | .obj _ => true
  | _ => false

/-- Shape preserved across `add_goal` calls: the ledger document is an
object whose `goals` key, when present, holds a list of objects. -/
def ledgerWF (gd : JVal) : Bool :=
  match gd with
  | .obj fs =>
      match jGet fs "goals" with
      | none => true
      | some (.arr gs) => gs.all goalIsObj
      | some _ => false
  | _ => false

/-- A learner-scoped store none of whose files has ever been written. -/
def emptyLearnerFiles : LearnerFiles :=
  ⟨.absent, .absent, .absent, .absent, .absent, .absent⟩

-- ## Derived sync descriptors and concrete instances

/-- A learner store whose every backing file exists but cannot be
opened/read (I/O error). -/
def ioErrStore : LearnerFiles :=
  ⟨.ioErr, .ioErr, .ioErr, .ioErr, .ioErr, .ioErr⟩

/-- A concrete store holding one skill-gap entry and one learning-path
entry, both for goal `"goal_B"`. -/
def twoGoalStore : LearnerFiles :=
  ⟨.absent, .absent,
   .content (.obj [("goal_B", .obj [("skill_gaps", .arr [.str "sql"])])]),
   .absent,
   .content (.obj [("goal_B", .obj [("path", .arr [.str "course1"])])]),
   .absent⟩

/-- A store with one prior history entry and one prior mastery entry. -/
def primedStore : LearnerFiles :=
  ⟨.absent, .absent, .absent,
   .content (.obj [("entries", .arr [.obj [("skill", .str "sql")]])]),
   .absent,
   .content (.arr [.obj [("role", .str "learner"),
                         ("content", .str "hi"),
                         ("timestamp", .str "t0")]])⟩

/-- A workspace whose registry holds only `learner_b`, while a memory
directory for the unregistered `learner_x` exists on disk. -/
def regWs : Workspace :=
  ⟨.content (.obj [("users", .arr [.obj [("learner_id", .str "learner_b"),
      ("name", .str "Bea"), ("email", .null), ("created_at", .str "t0")]])]),
   true, [⟨"learner_x", true, .absent⟩]⟩

/-- The profile fields of a directory entry, when its `profile.json` holds
an object. -/
def profObj (e : DirEntry) : Option (List (String × JVal)) :=
  match e.profile with
  | .content (.obj pfs) => some pfs
  | _ => none

/-- The effective learner id a directory contributes during the scan:
`profile.get("learner_id", learner_dir.name)`. -/
def effLid (e : DirEntry) : JVal :=
  match profObj e with
  | some pfs => (jGet pfs "learner_id").getD (.str e.name)
  | none => .str e.name

/-- The registry entry `sync_from_disk` produces for a learner directory on
the fresh-registration path: fields drawn from `profile.json` with the
defaults of `sync_from_disk` (`"Anonymous Learner"`, `None`) and of
`register_user` (`created_at or now`). -/
def mkRegUser (now : String) (e : DirEntry) : JVal :=
  match profObj e with
  | some pfs =>
      .obj [("learner_id", (jGet pfs "learner_id").getD (.str e.name)),
            ("name", (jGet pfs "name").getD (.str "Anonymous Learner")),
            ("email", (jGet pfs "email").getD .null),
            ("created_at",
              if jTruthy ((jGet pfs "created_at").getD .null)
              then (jGet pfs "created_at").getD .null else .str now)]
  | none => .null

/-- A workspace whose registry already lists `learner_a` with email
`"old@x"`, while the on-disk profile carries a new name and `"email":
null`. -/
def staleWs : Workspace :=
  ⟨.content (.obj [("users", .arr [.obj [("learner_id", .str "learner_a"),
      ("name", .str "Old"), ("email", .str "old@x"),
      ("created_at", .str "t0")]])]),
   true,
   [⟨"learner_a", true, .content (.obj [("learner_id", .str "learner_a"),
      ("name", .str "New"), ("email", .null)])⟩]⟩

/-- A fresh workspace: absent registry, two learner directories with valid
object profiles and distinct learner ids. -/
def freshWs : Workspace :=
  ⟨.absent, true,
   [⟨"learner_a", true, .content (.obj [("learner_id", .str "learner_a"),
      ("name", .str "Ada"), ("email", .str "ada@x"),
      ("created_at", .str "t0")])⟩,
    ⟨"learner_b", true, .content (.obj [("learner_id", .str "learner_b"),
      ("name", .str "Bob")])⟩]⟩


-- ## Dictionary lemmas

theorem jGet_jSet_self (fs : List (String × JVal)) (k : String) (v : JVal) :
    jGet (jSet fs k v) k = some v := by
  induction fs with
  | nil => simp [jSet, jGet]
  | cons p rest ih =>
      obtain ⟨k', v'⟩ := p
      by_cases h : k' = k
      · simp [jSet, jGet, h]
      · simp [jSet, jGet, h, ih]

theorem jGet_jSet_ne (fs : List (String × JVal)) (k k' : String) (v : JVal)
    (h : k ≠ k') : jGet (jSet fs k v) k' = jGet fs k' := by
  induction fs with
  | nil => simp [jSet, jGet, h]
  | cons p rest ih =>
      obtain ⟨k₀, v₀⟩ := p
      by_cases h0 : k₀ = k
      · subst h0; simp [jSet, jGet, h]
      · simp [jSet, jGet, h0, ih]

theorem jvalEq_str (a b : String) : jvalEq (.str a) (.str b) = (a == b) := by
  simp [jvalEq]

theorem deactivateGoal_result (fs : List (String × JVal)) :
    ∃ fs', deactivateGoal (.obj fs) = .ok (.obj fs') ∧
      isActive (.obj fs') = false := by
  by_cases h : jvalEq ((jGet fs "status").getD .null) (.str "active") = true
  · refine ⟨jSet fs "status" (.str "inactive"), ?_, ?_⟩
    · simp [deactivateGoal, h]
    · simp [isActive, jGet_jSet_self, jvalEq_str]
  · refine ⟨fs, ?_, ?_⟩
    · simp [deactivateGoal, h]
    · simpa [isActive] using h

theorem deactivateAll_ok (gs : List JVal) (h : gs.all goalIsObj = true) :
    ∃ gs', deactivateAll gs = .ok gs' ∧ gs'.all goalIsObj = true ∧
      gs'.filter isActive = [] := by
  induction gs with
  | nil => exact ⟨[], rfl, rfl, rfl⟩
  | cons g rest ih =>
      simp only [List.all_cons, Bool.and_eq_true] at h
      obtain ⟨hg, hrest⟩ := h
      obtain ⟨gs', hm, hall, hfilt⟩ := ih hrest
      match g, hg with
      | .obj fs, _ =>
          obtain ⟨fs', hd, hact⟩ := deactivateGoal_result fs
          refine ⟨.obj fs' :: gs', ?_, ?_, ?_⟩
          · simp [deactivateAll, hd, hm]
          · simp [goalIsObj, hall]
          · simp [List.filter_cons, hact, hfilt]

theorem isActive_newGoalRecord (inp : GoalInput) :
    isActive (newGoalRecord inp) = true := by
  simp [isActive, newGoalRecord, jGet, jvalEq_str]

theorem goalIsObj_newGoalRecord (inp : GoalInput) :
    goalIsObj (newGoalRecord inp) = true := rfl

theorem goalIdOf_newGoalRecord (inp : GoalInput) :
    goalIdOf (newGoalRecord inp) = some (.str inp.goal_id) := by
  simp [goalIdOf, newGoalRecord, jGet]

theorem addGoalData_ok (fs0 : List (String × JVal)) (inp : GoalInput)
    (h : ledgerWF (.obj fs0) = true) :
    ∃ fs', addGoalData (.obj fs0) inp = .ok (.obj fs') ∧
      ledgerWF (.obj fs') = true ∧ ledgerOK (.obj fs') = true := by
  have hgoals : ∃ gs,
      jGet (if (jGet fs0 "goals").isSome then fs0
            else jSet fs0 "goals" (.arr [])) "goals" = some (.arr gs) ∧
      gs.all goalIsObj = true := by
    cases hj : jGet fs0 "goals" with
    | none => exact ⟨[], by simp [hj, jGet_jSet_self], rfl⟩
    | some v =>
        cases v with
        | arr gs =>
            refine ⟨gs, by simp [hj], ?_⟩
            simpa [ledgerWF, hj] using h
        | null => simp [ledgerWF, hj] at h
        | bool b => simp [ledgerWF, hj] at h
        | num n => simp [ledgerWF, hj] at h
        | str a => simp [ledgerWF, hj] at h
        | obj o => simp [ledgerWF, hj] at h
  obtain ⟨gs, hg, hall⟩ := hgoals
  obtain ⟨gs', hda, hall', hfilt⟩ := deactivateAll_ok gs hall
  have hne : ("active_goal_id" : String) ≠ "goals" := by decide
  refine ⟨jSet (jSet (if (jGet fs0 "goals").isSome then fs0
            else jSet fs0 "goals" (.arr [])) "goals"
            (.arr (gs' ++ [newGoalRecord inp]))) "active_goal_id"
            (.str inp.goal_id), ?_, ?_, ?_⟩
  · simp only [addGoalData, hg, hda]
  · simp [ledgerWF, jGet_jSet_ne _ _ _ _ hne, jGet_jSet_self,
          List.all_append, hall', goalIsObj_newGoalRecord]
  · simp [ledgerOK, jGet_jSet_ne _ _ _ _ hne, jGet_jSet_self,
          List.filter_append, hfilt, isActive_newGoalRecord,
          goalIdOf_newGoalRecord, jvalEq_str]

theorem runAddGoals_ok (inps : List GoalInput) :
    ∀ (s : LearnerFiles) (gfs : List (String × JVal)),
      read_learning_goals s = .ok (.obj gfs) → ledgerWF (.obj gfs) = true →
      ∃ s' gfs', runAddGoals s inps = .ok s' ∧
        read_learning_goals s' = .ok (.obj gfs') ∧
        ledgerWF (.obj gfs') = true ∧
        (inps ≠ [] → ledgerOK (.obj gfs') = true) := by
  induction inps with
  | nil =>
      intro s gfs hr hwf
      exact ⟨s, gfs, rfl, hr, hwf, fun hcon => absurd rfl hcon⟩
  | cons inp rest ih =>
      intro s gfs hr hwf
      obtain ⟨fs', hadd, hwf', hok'⟩ := addGoalData_ok gfs inp hwf
      have hread' :
          read_learning_goals (write_learning_goals s (.obj fs')) =
            .ok (.obj fs') := rfl
      by_cases hrest : rest = []
      · subst hrest
        refine ⟨write_learning_goals s (.obj fs'), fs', ?_, hread', hwf',
          fun _ => hok'⟩
        simp [runAddGoals, add_goal, hr, hadd]
      · obtain ⟨s', gfs', hrun, hre, hw, hok⟩ :=
          ih (write_learning_goals s (.obj fs')) fs' hread' hwf'
        refine ⟨s', gfs', ?_, hre, hw, fun _ => hok hrest⟩
        simp [runAddGoals, add_goal, hr, hadd, hrun]

/-- **C1**: for every sequence of `add_goal` calls on a learner-scoped store
starting from an empty goal ledger, after each call (i.e. after every
nonempty prefix of the sequence) the run succeeds and the persisted
`learning_goal.json` document has exactly one record with status
`"active"`, that record is the most recently appended one, and
`active_goal_id` equals that record's `goal_id`. -/
theorem addGoal_single_active_invariant (inps : List GoalInput) (k : Nat)
    (hk : 0 < k) (hk2 : k ≤ inps.length) :
    ∃ s' gfs', runAddGoals emptyLearnerFiles (inps.take k) = .ok s' ∧
      read_learning_goals s' = .ok (.obj gfs') ∧
      ledgerOK (.obj gfs') = true := by
  have h0 : read_learning_goals emptyLearnerFiles = .ok (.obj []) := rfl
  obtain ⟨s', gfs', hrun, hre, _, hok⟩ :=
    runAddGoals_ok (inps.take k) emptyLearnerFiles [] h0 rfl
  have hlen : (inps.take k).length = min k inps.length := List.length_take _ _
  have hne : inps.take k ≠ [] := by
    intro hcon
    rw [hcon] at hlen
    simp at hlen
    omega
  exact ⟨s', gfs', hrun, hre, hok hne⟩

/-- Witness for C1: two concrete `add_goal` calls from the empty ledger. -/
theorem addGoal_single_active_invariant_witness :
    ∃ s' gfs',
      runAddGoals emptyLearnerFiles
        ([⟨"goal_20240101_a1b2c3", "2024-01-01T00:00:00", "Learn Rust", .null⟩,
          ⟨"goal_20240102_d4e5f6", "2024-01-02T00:00:00", "Learn Go",
           .null⟩].take 2) = .ok s' ∧
      read_learning_goals s' = .ok (.obj gfs') ∧
      ledgerOK (.obj gfs') = true :=
  addGoal_single_active_invariant _ 2 (by decide) (by decide)

-- ## C2: store read error handling

/-- **C2 counterexample**: with `profile.json` present but unreadable (an
I/O error at open), `read_profile` raises `IOError` to the caller instead
of returning `{}` — the claim's "never raises any exception under any file
content or I/O condition" is false for the document reads, which catch only
`json.JSONDecodeError`. -/
theorem read_profile_raises_on_io_error :
    read_profile ioErrStore = .error .ioError := rfl

theorem readJsonDoc_spec (fc : FileCond) :
    ((fc = .absent ∨ fc = .badJson) → readJsonDoc fc = .ok (.obj [])) ∧
    (fc ≠ .ioErr → ∃ v, readJsonDoc fc = .ok v) := by
  cases fc <;> simp [readJsonDoc]

/-- **C2 (amended)**: every document read of the learner-scoped store
(profile, learning goals, skill gaps, mastery, learning path) returns the
empty mapping when the backing file is absent or its content fails JSON
decoding, and raises only when opening/reading the existing file fails with
an I/O error; `read_history` additionally swallows I/O errors (its except
clause includes `IOError`), returning `[]`, and so never raises. -/
theorem document_reads_error_handling (s : LearnerFiles) :
    ((s.profile = .absent ∨ s.profile = .badJson) →
      read_profile s = .ok (.obj [])) ∧
    (s.profile ≠ .ioErr → ∃ v, read_profile s = .ok v) ∧
    ((s.learning_goal = .absent ∨ s.learning_goal = .badJson) →
      read_learning_goals s = .ok (.obj [])) ∧
    (s.learning_goal ≠ .ioErr → ∃ v, read_learning_goals s = .ok v) ∧
    ((s.skill_gaps = .absent ∨ s.skill_gaps = .badJson) →
      read_skill_gaps s = .ok (.obj [])) ∧
    (s.skill_gaps ≠ .ioErr → ∃ v, read_skill_gaps s = .ok v) ∧
    ((s.mastery = .absent ∨ s.mastery = .badJson) →
      read_mastery s = .ok (.obj [])) ∧
    (s.mastery ≠ .ioErr → ∃ v, read_mastery s = .ok v) ∧
    ((s.learning_path = .absent ∨ s.learning_path = .badJson) →
      read_learning_path s = .ok (.obj [])) ∧
    (s.learning_path ≠ .ioErr → ∃ v, read_learning_path s = .ok v) ∧
    ((s.chat_history = .absent ∨ s.chat_history = .badJson) →
      read_history s = .ok (.arr [])) ∧
    (∃ v, read_history s = .ok v) := by
  refine ⟨(readJsonDoc_spec s.profile).1, (readJsonDoc_spec s.profile).2,
    (readJsonDoc_spec s.learning_goal).1, (readJsonDoc_spec s.learning_goal).2,
    (readJsonDoc_spec s.skill_gaps).1, (readJsonDoc_spec s.skill_gaps).2,
    (readJsonDoc_spec s.mastery).1, (readJsonDoc_spec s.mastery).2,
    (readJsonDoc_spec s.learning_path).1, (readJsonDoc_spec s.learning_path).2,
    ?_, ?_⟩
  · intro h
    rcases h with h | h <;> simp [read_history, readHistoryDoc, h]
  · cases h : s.chat_history with
    | absent => exact ⟨.arr [], by simp [read_history, readHistoryDoc, h]⟩
    | content v => exact ⟨v, by simp [read_history, readHistoryDoc, h]⟩
    | badJson => exact ⟨.arr [], by simp [read_history, readHistoryDoc, h]⟩
    | ioErr => exact ⟨.arr [], by simp [read_history, readHistoryDoc, h]⟩

/-- Witness for the amended C2 at concrete stores: an absent profile reads
as `{}`, and an unreadable history file reads as `[]` without raising. -/
theorem document_reads_error_handling_witness :
    read_profile emptyLearnerFiles = .ok (.obj []) ∧
    ∃ v, read_history ioErrStore = .ok v :=
  ⟨(document_reads_error_handling emptyLearnerFiles).1 (Or.inl rfl),
   (document_reads_error_handling ioErrStore).2.2.2.2.2.2.2.2.2.2.2⟩

-- ## C3: facade read error handling

/-- **C3 counterexample**: `LearnerRepository.get_skill_gaps_for_goal` has no
try/except around the store call; when the store read raises (unreadable
`skill_gaps.json`) the facade read raises too, contradicting "no facade
read ever raises". -/
theorem repo_skill_gaps_for_goal_raises :
    repo_get_skill_gaps_for_goal ioErrStore "goal_1" = .error .ioError := rfl

/-- **C3 (amended)**: the facade reads `get_profile`, `get_learning_goals`,
`get_skill_gaps`, `get_learning_path`, `get_mastery` and `get_history` wrap
the store call in try/except and never raise, for every store state; but
`get_skill_gaps_for_goal`, `get_learning_path_for_goal` and
`search_history` delegate to the store with no try/except and propagate
whatever the store raises. -/
theorem repo_reads_error_handling (s : LearnerFiles) (limit : Nat)
    (goal_id query : String) :
    (∃ r, repo_get_profile s = .ok r) ∧
    (∃ r, repo_get_learning_goals s = .ok r) ∧
    (∃ r, repo_get_skill_gaps s = .ok r) ∧
    (∃ r, repo_get_learning_path s = .ok r) ∧
    (∃ r, repo_get_mastery s = .ok r) ∧
    (∃ r, repo_get_history s limit = .ok r) ∧
    repo_get_skill_gaps_for_goal s goal_id =
      read_skill_gaps_for_goal s goal_id ∧
    repo_get_learning_path_for_goal s goal_id =
      read_learning_path_for_goal s goal_id ∧
    repo_search_history s query = search_history s query := by
  refine ⟨?_, ?_, ?_, ?_, ?_, ?_, rfl, rfl, rfl⟩
  · cases h : read_profile s with
    | ok v => exact ⟨if jTruthy v then some v else none,
        by simp [repo_get_profile, h]⟩
    | error e => exact ⟨none, by simp [repo_get_profile, h]⟩
  · cases h : read_learning_goals s with
    | ok v => exact ⟨if jTruthy v then some v else none,
        by simp [repo_get_learning_goals, h]⟩
    | error e => exact ⟨none, by simp [repo_get_learning_goals, h]⟩
  · cases h : read_skill_gaps s with
    | ok v => exact ⟨if jTruthy v then some v else none,
        by simp [repo_get_skill_gaps, h]⟩
    | error e => exact ⟨none, by simp [repo_get_skill_gaps, h]⟩
  · cases h : read_learning_path s with
    | ok v => exact ⟨if jTruthy v then some v else none,
        by simp [repo_get_learning_path, h]⟩
    | error e => exact ⟨none, by simp [repo_get_learning_path, h]⟩
  · cases h : read_mastery s with
    | ok v => exact ⟨if jTruthy v then some v else none,
        by simp [repo_get_mastery, h]⟩
    | error e => exact ⟨none, by simp [repo_get_mastery, h]⟩
  · cases h : read_history s with
    | ok v =>
        cases v with
        | arr xs =>
            exact ⟨if 0 < limit ∧ limit < xs.length
                   then xs.drop (xs.length - limit) else xs,
              by simp [repo_get_history, h]⟩
        | null => exact ⟨[], by simp [repo_get_history, h]⟩
        | bool b => exact ⟨[], by simp [repo_get_history, h]⟩
        | num n => exact ⟨[], by simp [repo_get_history, h]⟩
        | str a => exact ⟨[], by simp [repo_get_history, h]⟩
        | obj o => exact ⟨[], by simp [repo_get_history, h]⟩
    | error e => exact ⟨[], by simp [repo_get_history, h]⟩

-- ## C7: round-trip fidelity

/-- **C7**: for every document `D` and every flat write/read pair of the
learner-scoped store, writing `D` and reading it back returns exactly `D`
(these write paths inject no timestamp at all, so equality is exact, which
implies equality up to store-injected fields). -/
theorem write_read_round_trip (s : LearnerFiles) (d : JVal) :
    read_profile (write_profile s d) = .ok d ∧
    read_learning_goals (write_learning_goals s d) = .ok d ∧
    read_skill_gaps (write_skill_gaps s d) = .ok d ∧
    read_mastery (write_mastery s d) = .ok d ∧
    read_learning_path (write_learning_path s d) = .ok d :=
  ⟨rfl, rfl, rfl, rfl, rfl⟩

-- ## C4: goal-scoped isolation

/-- **C4**: for distinct goal ids `a ≠ b`, writing a skill-gap document for
goal `a` leaves the stored entry for goal `b` in `skill_gaps.json`
unchanged, and likewise a goal-scoped learning-path write in
`learning_path.json`. -/
theorem goal_scoped_write_isolation (s : LearnerFiles)
    (gfs pfs dfs d2fs : List (String × JVal)) (a b : String)
    (docB pdocB : JVal) (now : String) (hab : b ≠ a)
    (hsg : read_skill_gaps s = .ok (.obj gfs))
    (hB : jGet gfs b = some docB)
    (hlp : read_learning_path s = .ok (.obj pfs))
    (hpB : jGet pfs b = some pdocB) :
    ∃ s₁ s₂,
      write_skill_gaps_for_goal s a (.obj dfs) now = .ok s₁ ∧
      read_skill_gaps_for_goal s₁ b = .ok docB ∧
      write_learning_path_for_goal s a (.obj d2fs) now = .ok s₂ ∧
      read_learning_path_for_goal s₂ b = .ok pdocB := by
  refine ⟨write_skill_gaps s (.obj (jSet gfs a
      (.obj (jSet dfs "updated_at" (.str now))))),
    write_learning_path s (.obj (jSet pfs a
      (.obj (jSet d2fs "updated_at" (.str now))))), ?_, ?_, ?_, ?_⟩
  · simp [write_skill_gaps_for_goal, hsg]
  · simp [read_skill_gaps_for_goal, read_skill_gaps, write_skill_gaps,
      readJsonDoc, jGet_jSet_ne _ _ _ _ (Ne.symm hab), hB]
  · simp [write_learning_path_for_goal, hlp]
  · simp [read_learning_path_for_goal, read_learning_path,
      write_learning_path, readJsonDoc,
      jGet_jSet_ne _ _ _ _ (Ne.symm hab), hB, hpB]

/-- Witness for C4: writing goal `"goal_A"` leaves `"goal_B"`'s stored
documents untouched in both side tables. -/
theorem goal_scoped_write_isolation_witness :
    ∃ s₁ s₂,
      write_skill_gaps_for_goal twoGoalStore "goal_A"
        (.obj [("skill_gaps", .arr [.str "rust"])]) "2024-01-03T00:00:00" =
        .ok s₁ ∧
      read_skill_gaps_for_goal s₁ "goal_B" =
        .ok (.obj [("skill_gaps", .arr [.str "sql"])]) ∧
      write_learning_path_for_goal twoGoalStore "goal_A"
        (.obj [("path", .arr [.str "course2"])]) "2024-01-03T00:00:00" =
        .ok s₂ ∧
      read_learning_path_for_goal s₂ "goal_B" =
        .ok (.obj [("path", .arr [.str "course1"])]) :=
  goal_scoped_write_isolation twoGoalStore _ _ _ _ "goal_A" "goal_B" _ _
    "2024-01-03T00:00:00" (by decide) rfl rfl rfl rfl

-- ## C8: goal-scoped writes always overwrite `updated_at`

/-- **C8**: after `write_skill_gaps_for_goal(goal_id, d)` (resp.
`write_learning_path_for_goal`) the stored entry for `goal_id` equals `d`
on every key other than `"updated_at"`, and its `"updated_at"` is the
store-generated timestamp — even when `d` already contained an
`"updated_at"` key (no assumption on `d`'s fields is made). -/
theorem goal_scoped_write_stamps (s : LearnerFiles)
    (gfs pfs dfs d2fs : List (String × JVal)) (gid now : String)
    (hsg : read_skill_gaps s = .ok (.obj gfs))
    (hlp : read_learning_path s = .ok (.obj pfs)) :
    ∃ s₁ s₂,
      write_skill_gaps_for_goal s gid (.obj dfs) now = .ok s₁ ∧
      read_skill_gaps_for_goal s₁ gid =
        .ok (.obj (jSet dfs "updated_at" (.str now))) ∧
      jGet (jSet dfs "updated_at" (.str now)) "updated_at" =
        some (.str now) ∧
      (∀ k, k ≠ "updated_at" →
        jGet (jSet dfs "updated_at" (.str now)) k = jGet dfs k) ∧
      write_learning_path_for_goal s gid (.obj d2fs) now = .ok s₂ ∧
      read_learning_path_for_goal s₂ gid =
        .ok (.obj (jSet d2fs "updated_at" (.str now))) ∧
      jGet (jSet d2fs "updated_at" (.str now)) "updated_at" =
        some (.str now) ∧
      (∀ k, k ≠ "updated_at" →
        jGet (jSet d2fs "updated_at" (.str now)) k = jGet d2fs k) := by
  refine ⟨write_skill_gaps s (.obj (jSet gfs gid
      (.obj (jSet dfs "updated_at" (.str now))))),
    write_learning_path s (.obj (jSet pfs gid
      (.obj (jSet d2fs "updated_at" (.str now))))),
    ?_, ?_, jGet_jSet_self _ _ _,
    fun k hk => jGet_jSet_ne _ _ _ _ (Ne.symm hk),
    ?_, ?_, jGet_jSet_self _ _ _,
    fun k hk => jGet_jSet_ne _ _ _ _ (Ne.symm hk)⟩
  · simp [write_skill_gaps_for_goal, hsg]
  · simp [read_skill_gaps_for_goal, read_skill_gaps, write_skill_gaps,
      readJsonDoc, jGet_jSet_self]
  · simp [write_learning_path_for_goal, hlp]
  · simp [read_learning_path_for_goal, read_learning_path,
      write_learning_path, readJsonDoc, jGet_jSet_self]

/-- Witness for C8: a document that already carries `"updated_at"` has it
overwritten by the store-generated timestamp, other keys unchanged. -/
theorem goal_scoped_write_stamps_witness :
    ∃ s₁ s₂,
      write_skill_gaps_for_goal twoGoalStore "goal_B"
        (.obj [("updated_at", .str "caller-supplied"),
               ("skill_gaps", .arr [.str "go"])]) "2024-02-01T00:00:00" =
        .ok s₁ ∧
      read_skill_gaps_for_goal s₁ "goal_B" =
        .ok (.obj (jSet [("updated_at", .str "caller-supplied"),
               ("skill_gaps", .arr [.str "go"])] "updated_at"
               (.str "2024-02-01T00:00:00"))) ∧
      jGet (jSet [("updated_at", .str "caller-supplied"),
               ("skill_gaps", .arr [.str "go"])] "updated_at"
               (.str "2024-02-01T00:00:00")) "updated_at" =
        some (.str "2024-02-01T00:00:00") ∧
      (∀ k, k ≠ "updated_at" →
        jGet (jSet [("updated_at", .str "caller-supplied"),
               ("skill_gaps", .arr [.str "go"])] "updated_at"
               (.str "2024-02-01T00:00:00")) k =
        jGet [("updated_at", .str "caller-supplied"),
               ("skill_gaps", .arr [.str "go"])] k) ∧
      write_learning_path_for_goal twoGoalStore "goal_B"
        (.obj [("path", .arr [.str "course3"])]) "2024-02-01T00:00:00" =
        .ok s₂ ∧
      read_learning_path_for_goal s₂ "goal_B" =
        .ok (.obj (jSet [("path", .arr [.str "course3"])] "updated_at"
               (.str "2024-02-01T00:00:00"))) ∧
      jGet (jSet [("path", .arr [.str "course3"])] "updated_at"
               (.str "2024-02-01T00:00:00")) "updated_at" =
        some (.str "2024-02-01T00:00:00") ∧
      (∀ k, k ≠ "updated_at" →
        jGet (jSet [("path", .arr [.str "course3"])] "updated_at"
               (.str "2024-02-01T00:00:00")) k =
        jGet [("path", .arr [.str "course3"])] k) :=
  goal_scoped_write_stamps twoGoalStore _ _ _ _ "goal_B"
    "2024-02-01T00:00:00" rfl rfl

-- ## C6: append monotonicity

/-- **C6**: one `append_history` call leaves the stored history list exactly
one entry longer, with every prior entry unchanged in its original position
and the new entry at the end; likewise `append_mastery_entry` for the
mastery `entries` list (whether or not the `entries` key existed before). -/
theorem append_monotonicity (s : LearnerFiles) (hs es : List JVal)
    (mfs entryFields : List (String × JVal)) (role content : String)
    (metadata : JVal) (now now2 : String)
    (hh : read_history s = .ok (.arr hs))
    (hm : read_mastery s = .ok (.obj mfs))
    (hes : jGet mfs "entries" = some (.arr es) ∨
           (jGet mfs "entries" = none ∧ es = [])) :
    (∃ s₁, append_history s role content metadata now = .ok s₁ ∧
      read_history s₁ =
        .ok (.arr (hs ++ [historyEntry role content metadata now])) ∧
      (hs ++ [historyEntry role content metadata now]).length =
        hs.length + 1 ∧
      (hs ++ [historyEntry role content metadata now]).take hs.length =
        hs) ∧
    (∃ s₂ mfs', append_mastery_entry s (.obj entryFields) now2 = .ok s₂ ∧
      read_mastery s₂ = .ok (.obj mfs') ∧
      jGet mfs' "entries" =
        some (.arr (es ++ [stampTimestamp entryFields now2])) ∧
      (es ++ [stampTimestamp entryFields now2]).length = es.length + 1 ∧
      (es ++ [stampTimestamp entryFields now2]).take es.length = es) := by
  constructor
  · refine ⟨write_history s
        (.arr (hs ++ [historyEntry role content metadata now])),
      ?_, rfl, by simp, List.take_left _ _⟩
    simp [append_history, hh]
  · rcases hes with hes | ⟨hes, rfl⟩
    · refine ⟨write_mastery s (.obj (jSet mfs "entries"
          (.arr (es ++ [stampTimestamp entryFields now2])))),
        jSet mfs "entries"
          (.arr (es ++ [stampTimestamp entryFields now2])),
        ?_, rfl, jGet_jSet_self _ _ _, by simp, List.take_left _ _⟩
      simp [append_mastery_entry, hm, hes]
    · refine ⟨write_mastery s (.obj (jSet (jSet mfs "entries" (.arr []))
          "entries" (.arr ([] ++ [stampTimestamp entryFields now2])))),
        jSet (jSet mfs "entries" (.arr [])) "entries"
          (.arr ([] ++ [stampTimestamp entryFields now2])),
        ?_, rfl, jGet_jSet_self _ _ _, by simp, by simp⟩
      simp [append_mastery_entry, hm, hes, jGet_jSet_self]

/-- Witness for C6 on `primedStore`: both appends preserve the single prior
entry and add exactly one new entry at the end. -/
theorem append_monotonicity_witness :
    (∃ s₁, append_history primedStore "tutor" "hello" .null "t1" = .ok s₁ ∧
      read_history s₁ =
        .ok (.arr ([JVal.obj [("role", .str "learner"),
                          ("content", .str "hi"),
                          ("timestamp", .str "t0")]] ++
          [historyEntry "tutor" "hello" .null "t1"])) ∧
      ([JVal.obj [("role", .str "learner"), ("content", .str "hi"),
              ("timestamp", .str "t0")]] ++
        [historyEntry "tutor" "hello" .null "t1"]).length =
        [JVal.obj [("role", .str "learner"), ("content", .str "hi"),
              ("timestamp", .str "t0")]].length + 1 ∧
      ([JVal.obj [("role", .str "learner"), ("content", .str "hi"),
              ("timestamp", .str "t0")]] ++
        [historyEntry "tutor" "hello" .null "t1"]).take
        [JVal.obj [("role", .str "learner"), ("content", .str "hi"),
              ("timestamp", .str "t0")]].length =
        [JVal.obj [("role", .str "learner"), ("content", .str "hi"),
              ("timestamp", .str "t0")]]) ∧
    (∃ s₂ mfs', append_mastery_entry primedStore
        (.obj [("skill", .str "rust")]) "t2" = .ok s₂ ∧
      read_mastery s₂ = .ok (.obj mfs') ∧
      jGet mfs' "entries" =
        some (.arr ([JVal.obj [("skill", .str "sql")]] ++
          [stampTimestamp [("skill", .str "rust")] "t2"])) ∧
      ([JVal.obj [("skill", .str "sql")]] ++
        [stampTimestamp [("skill", .str "rust")] "t2"]).length =
        [JVal.obj [("skill", .str "sql")]].length + 1 ∧
      ([JVal.obj [("skill", .str "sql")]] ++
        [stampTimestamp [("skill", .str "rust")] "t2"]).take
        [JVal.obj [("skill", .str "sql")]].length =
        [JVal.obj [("skill", .str "sql")]]) :=
  append_monotonicity primedStore _ _ _ _ "tutor" "hello" .null "t1" "t2"
    rfl rfl (Or.inl rfl)

-- ## C10: `update_evaluations` timestamp asymmetry

/-- **C10**: for an evaluation object without a `"timestamp"` key,
`update_evaluations` stores `last_evaluation` exactly as given (still
without a timestamp), while the entry appended to `evaluations_history` is
a copy with the generated timestamp injected; the two differ exactly in the
`"timestamp"` field. -/
theorem update_evaluations_spec (s : LearnerFiles)
    (mfs evalFields : List (String × JVal)) (ehs : List JVal) (now : String)
    (hm : read_mastery s = .ok (.obj mfs))
    (hnots : jGet evalFields "timestamp" = none)
    (hhist : jGet mfs "evaluations_history" = some (.arr ehs) ∨
             (jGet mfs "evaluations_history" = none ∧ ehs = [])) :
    ∃ s' mfs', update_evaluations s (.obj evalFields) now = .ok s' ∧
      read_mastery s' = .ok (.obj mfs') ∧
      jGet mfs' "last_evaluation" = some (.obj evalFields) ∧
      jGet mfs' "evaluations_history" =
        some (.arr (ehs ++
          [.obj (jSet evalFields "timestamp" (.str now))])) ∧
      jGet (jSet evalFields "timestamp" (.str now)) "timestamp" =
        some (.str now) ∧
      (∀ k, k ≠ "timestamp" →
        jGet (jSet evalFields "timestamp" (.str now)) k =
          jGet evalFields k) := by
  have hne1 : ("last_evaluation" : String) ≠ "evaluations_history" := by
    decide
  have hne2 : ("evaluations_history" : String) ≠ "last_evaluation" := by
    decide
  have hstamp : stampTimestamp evalFields now =
      .obj (jSet evalFields "timestamp" (.str now)) := by
    simp [stampTimestamp, hnots]
  rcases hhist with hh1 | ⟨hh1, rfl⟩
  · refine ⟨write_mastery s (JVal.obj (jSet
        (jSet mfs "last_evaluation" (JVal.obj evalFields))
        "evaluations_history"
        (JVal.arr (ehs ++
          [JVal.obj (jSet evalFields "timestamp" (.str now))])))),
      jSet (jSet mfs "last_evaluation" (JVal.obj evalFields))
        "evaluations_history"
        (JVal.arr (ehs ++
          [JVal.obj (jSet evalFields "timestamp" (.str now))])),
      ?_, rfl, ?_, ?_, jGet_jSet_self _ _ _,
      fun k hk => jGet_jSet_ne _ _ _ _ (Ne.symm hk)⟩
    · simp [update_evaluations, hm, jGet_jSet_ne _ _ _ _ hne1, hh1, hstamp]
    · rw [jGet_jSet_ne _ _ _ _ hne2, jGet_jSet_self]
    · rw [jGet_jSet_self]
  · refine ⟨write_mastery s (JVal.obj (jSet
        (jSet (jSet mfs "last_evaluation" (JVal.obj evalFields))
          "evaluations_history" (JVal.arr []))
        "evaluations_history"
        (JVal.arr ([] ++
          [JVal.obj (jSet evalFields "timestamp" (.str now))])))),
      jSet (jSet (jSet mfs "last_evaluation" (JVal.obj evalFields))
        "evaluations_history" (JVal.arr []))
        "evaluations_history"
        (JVal.arr ([] ++
          [JVal.obj (jSet evalFields "timestamp" (.str now))])),
      ?_, rfl, ?_, ?_, jGet_jSet_self _ _ _,
      fun k hk => jGet_jSet_ne _ _ _ _ (Ne.symm hk)⟩
    · simp [update_evaluations, hm, jGet_jSet_ne _ _ _ _ hne1, hh1,
        jGet_jSet_self, hstamp]
    · rw [jGet_jSet_ne _ _ _ _ hne2, jGet_jSet_ne _ _ _ _ hne2,
        jGet_jSet_self]
    · rw [jGet_jSet_self]

/-- Witness for C10: a concrete evaluation without a timestamp, on a store
with no prior mastery document. -/
theorem update_evaluations_spec_witness :
    ∃ s' mfs', update_evaluations emptyLearnerFiles
        (.obj [("overall_score", .num 90)]) "t3" = .ok s' ∧
      read_mastery s' = .ok (.obj mfs') ∧
      jGet mfs' "last_evaluation" =
        some (.obj [("overall_score", .num 90)]) ∧
      jGet mfs' "evaluations_history" =
        some (.arr ([] ++
          [.obj (jSet [("overall_score", .num 90)] "timestamp"
            (.str "t3"))])) ∧
      jGet (jSet [("overall_score", .num 90)] "timestamp" (.str "t3"))
        "timestamp" = some (.str "t3") ∧
      (∀ k, k ≠ "timestamp" →
        jGet (jSet [("overall_score", .num 90)] "timestamp" (.str "t3")) k =
          jGet [("overall_score", .num 90)] k) :=
  update_evaluations_spec emptyLearnerFiles [] _ [] "t3" rfl rfl
    (Or.inr ⟨rfl, rfl⟩)

-- ## C9: `delete_user` on an unregistered learner id

theorem filterUsers_no_match (lid : String) :
    ∀ us : List JVal,
      (∀ u ∈ us, ∃ fs, u = .obj fs ∧
        jvalEq ((jGet fs "learner_id").getD .null) (.str lid) = false) →
      filterUsers us lid = .ok us := by
  intro us
  induction us with
  | nil => intro _; rfl
  | cons u rest ih =>
      intro h
      obtain ⟨fs, rfl, hne⟩ := h u (by simp)
      have hrest := ih (fun v hv => h v (by simp [hv]))
      simp [filterUsers, hrest, hne]

/-- **C9**: when no registry entry carries the given learner id,
`delete_user` returns `False` and leaves all state unchanged — the registry
file is not rewritten and the learner's memory directory is not removed,
even if that directory exists on disk. -/
theorem delete_user_absent (ws : Workspace) (lid : String)
    (rfs : List (String × JVal)) (us : List JVal)
    (h1 : loadRegistry ws.usersFile = .obj rfs)
    (h2 : (jGet rfs "users").getD (.arr []) = .arr us)
    (h3 : ∀ u ∈ us, ∃ fs, u = .obj fs ∧
      jvalEq ((jGet fs "learner_id").getD .null) (.str lid) = false) :
    delete_user ws lid = .ok (ws, false) := by
  simp [delete_user, h1, h2, filterUsers_no_match lid us h3]

/-- Witness for C9: deleting the unregistered `learner_x` returns `False`
and the workspace (registry file and `learner_x` directory) is unchanged. -/
theorem delete_user_absent_witness :
    delete_user regWs "learner_x" = .ok (regWs, false) :=
  delete_user_absent regWs "learner_x" _ _ rfl rfl
    (by
      intro u hu
      simp at hu
      subst hu
      exact ⟨_, rfl, by decide⟩)

-- ## C5: registry sync from disk

/-- **C5 counterexample**: `staleWs`'s memory tree holds N = 1 learner
directory with a valid `profile.json`; `sync_from_disk` returns 1, but the
single registry entry afterwards keeps the stale email `"old@x"` although
that learner's profile has `"email": null` (`register_user` overwrites the
email only when the new one is truthy), so the entry's email does not match
the profile. -/
theorem sync_from_disk_stale_email :
    (sync_from_disk staleWs "t1").2 = 1 ∧
    list_users (sync_from_disk staleWs "t1").1 =
      .ok (.arr [.obj [("learner_id", .str "learner_a"),
        ("name", .str "New"), ("email", .str "old@x"),
        ("created_at", .str "t0")]]) ∧
    jGet [("learner_id", .str "learner_a"), ("name", .str "New"),
      ("email", .null)] "email" = some .null :=
  ⟨rfl, rfl, rfl⟩

theorem registerLoop_no_match (name email lid : JVal) :
    ∀ us : List JVal,
      (∀ u ∈ us, ∃ ufs, u = .obj ufs ∧
        jvalEq ((jGet ufs "learner_id").getD .null) lid = false) →
      registerLoop name email us lid = .ok none := by
  intro us
  induction us with
  | nil => intro _; rfl
  | cons u rest ih =>
      intro h
      obtain ⟨ufs, rfl, hne⟩ := h u (by simp)
      have hrest := ih (fun v hv => h v (by simp [hv]))
      simp [registerLoop, hne, hrest]

/-- `register_user` on a learner id matching no current registry entry:
appends the new user entry at the end of the `users` list. -/
theorem register_user_fresh (ws : Workspace) (acc : List JVal)
    (lid name email created : JVal) (now : String)
    (hreg : loadRegistry ws.usersFile = .obj [("users", .arr acc)])
    (hno : ∀ u ∈ acc, ∃ ufs, u = .obj ufs ∧
      jvalEq ((jGet ufs "learner_id").getD .null) lid = false) :
    register_user ws lid name email created now =
      .ok ({ ws with usersFile := .content (.obj [("users", .arr (acc ++
          [.obj [("learner_id", lid), ("name", name), ("email", email),
            ("created_at", if jTruthy created then created
                           else .str now)]]))]) },
        .obj [("learner_id", lid), ("name", name), ("email", email),
          ("created_at", if jTruthy created then created
                         else .str now)]) := by
  simp [register_user, hreg, registerLoop_no_match name email lid acc hno,
    jGet, jSet]

/-- One `sync_from_disk` iteration on a learner directory with an
object-shaped profile whose effective learner id is not yet registered:
registers it freshly and contributes 1 to the count. -/
theorem syncEntry_fresh (ws : Workspace) (acc : List JVal) (e : DirEntry)
    (pfs : List (String × JVal)) (now : String)
    (hreg : loadRegistry ws.usersFile = .obj [("users", .arr acc)])
    (hdir : e.isDir = true)
    (hname : strStartsWith e.name "learner_" = true)
    (hprof : e.profile = .content (.obj pfs))
    (hno : ∀ u ∈ acc, ∃ ufs, u = .obj ufs ∧
      jvalEq ((jGet ufs "learner_id").getD .null) (effLid e) = false) :
    syncEntry ws e now =
      ({ ws with usersFile :=
          .content (.obj [("users", .arr (acc ++ [mkRegUser now e]))]) },
       1) := by
  have hlid : effLid e = (jGet pfs "learner_id").getD (.str e.name) := by
    simp [effLid, profObj, hprof]
  have hmk : mkRegUser now e =
      .obj [("learner_id", (jGet pfs "learner_id").getD (.str e.name)),
            ("name", (jGet pfs "name").getD (.str "Anonymous Learner")),
            ("email", (jGet pfs "email").getD .null),
            ("created_at",
              if jTruthy ((jGet pfs "created_at").getD .null)
              then (jGet pfs "created_at").getD .null else .str now)] := by
    simp [mkRegUser, profObj, hprof]
  rw [hlid] at hno
  simp [syncEntry, hdir, hname, hprof, hmk,
    register_user_fresh ws acc ((jGet pfs "learner_id").getD (.str e.name))
      ((jGet pfs "name").getD (.str "Anonymous Learner"))
      ((jGet pfs "email").getD .null)
      ((jGet pfs "created_at").getD .null) now hreg hno]

theorem syncFold_spec (now : String) :
    ∀ (entries : List DirEntry) (ws : Workspace) (acc : List JVal) (k : Nat),
      loadRegistry ws.usersFile = .obj [("users", .arr acc)] →
      (∀ e ∈ entries, e.isDir = true ∧
        strStartsWith e.name "learner_" = true ∧
        ∃ pfs, e.profile = .content (.obj pfs)) →
      (∀ e ∈ entries, ∀ u ∈ acc, ∃ ufs, u = .obj ufs ∧
        jvalEq ((jGet ufs "learner_id").getD .null) (effLid e) = false) →
      entries.Pairwise
        (fun e1 e2 => jvalEq (effLid e1) (effLid e2) = false) →
      ∃ ws', entries.foldl (syncStep now) (ws, k) =
          (ws', k + entries.length) ∧
        loadRegistry ws'.usersFile =
          .obj [("users", .arr (acc ++ entries.map (mkRegUser now)))] ∧
        ws'.memoryExists = ws.memoryExists ∧ ws'.entries = ws.entries := by
  intro entries
  induction entries with
  | nil =>
      intro ws acc k hreg _ _ _
      exact ⟨ws, by simp, by simpa using hreg, rfl, rfl⟩
  | cons e rest ih =>
      intro ws acc k hreg hgood hno hpw
      obtain ⟨hdir, hname, pfs, hprof⟩ := hgood e (by simp)
      have hstep := syncEntry_fresh ws acc e pfs now hreg hdir hname hprof
        (hno e (by simp))
      rw [List.pairwise_cons] at hpw
      obtain ⟨hpwhead, hpwtail⟩ := hpw
      have hl : effLid e = (jGet pfs "learner_id").getD (.str e.name) := by
        simp [effLid, profObj, hprof]
      have hreg1 : loadRegistry (FileCond.content
          (.obj [("users", .arr (acc ++ [mkRegUser now e]))])) =
          .obj [("users", .arr (acc ++ [mkRegUser now e]))] := rfl
      have hno1 : ∀ e' ∈ rest, ∀ u ∈ acc ++ [mkRegUser now e],
          ∃ ufs, u = .obj ufs ∧
            jvalEq ((jGet ufs "learner_id").getD .null) (effLid e') =
              false := by
        intro e' he' u hu
        rcases List.mem_append.mp hu with hu | hu
        · exact hno e' (by simp [he']) u hu
        · have hue : u = mkRegUser now e := by simpa using hu
          subst hue
          refine ⟨[("learner_id", (jGet pfs "learner_id").getD (.str e.name)),
            ("name", (jGet pfs "name").getD (.str "Anonymous Learner")),
            ("email", (jGet pfs "email").getD .null),
            ("created_at", if jTruthy ((jGet pfs "created_at").getD .null)
              then (jGet pfs "created_at").getD .null else .str now)],
            by simp [mkRegUser, profObj, hprof], ?_⟩
          have hj : jGet [("learner_id",
              (jGet pfs "learner_id").getD (.str e.name)),
            ("name", (jGet pfs "name").getD (.str "Anonymous Learner")),
            ("email", (jGet pfs "email").getD .null),
            ("created_at", if jTruthy ((jGet pfs "created_at").getD .null)
              then (jGet pfs "created_at").getD .null else .str now)]
              "learner_id" =
              some ((jGet pfs "learner_id").getD (.str e.name)) := by
            simp [jGet]
          rw [hj]
          simpa [hl] using hpwhead e' he'
      obtain ⟨ws', hfold, hreg', hmem', hent'⟩ :=
        ih ({ ws with usersFile := FileCond.content (.obj [("users", .arr (acc ++ [mkRegUser now e]))]) })
          (acc ++ [mkRegUser now e]) (k + 1) hreg1
          (fun e' he' => hgood e' (by simp [he'])) hno1 hpwtail
      refine ⟨ws', ?_, ?_, hmem', hent'⟩
      · rw [List.foldl_cons]
        have hs : syncStep now (ws, k) e =
            ({ ws with usersFile := FileCond.content (.obj [("users", .arr (acc ++ [mkRegUser now e]))]) },
             k + 1) := by
          simp [syncStep, hstep]
        rw [hs, hfold]
        simp [List.length_cons]
        omega
      · rw [hreg']
        simp

/-- **C5 (amended)**: starting from an empty (absent) user registry, for a
workspace whose `memory/` tree holds N learner directories — each a
directory whose name starts with `learner_`, each with an object-shaped
`profile.json`, with pairwise-distinct effective learner ids —
`sync_from_disk` scans them all, returns N, and afterwards `list_users`
holds exactly one registry entry per directory, in scan order, whose
`learner_id`, `name` and `email` are drawn from that learner's profile
(name defaulting to `"Anonymous Learner"` and email to `null` when the
profile omits them).  With a non-empty starting registry the claim fails:
see the counterexample, where a stale email survives the sync. -/
theorem sync_from_disk_fresh_registry (ws : Workspace) (now : String)
    (hmem : ws.memoryExists = true)
    (hreg : ws.usersFile = .absent)
    (hdirs : ∀ e ∈ ws.entries, e.isDir = true ∧
      strStartsWith e.name "learner_" = true ∧
      ∃ pfs, e.profile = .content (.obj pfs))
    (hdist : ws.entries.Pairwise
      (fun e1 e2 => jvalEq (effLid e1) (effLid e2) = false)) :
    (sync_from_disk ws now).2 = ws.entries.length ∧
    list_users (sync_from_disk ws now).1 =
      .ok (.arr (ws.entries.map (mkRegUser now))) ∧
    ∀ e ∈ ws.entries, ∀ pfs, e.profile = .content (.obj pfs) →
      ∃ ufs, mkRegUser now e = .obj ufs ∧
        jGet ufs "learner_id" =
          some ((jGet pfs "learner_id").getD (.str e.name)) ∧
        jGet ufs "name" =
          some ((jGet pfs "name").getD (.str "Anonymous Learner")) ∧
        jGet ufs "email" = some ((jGet pfs "email").getD .null) := by
  have hreg0 : loadRegistry ws.usersFile = .obj [("users", .arr [])] := by
    simp [loadRegistry, hreg]
  obtain ⟨ws', hfold, hreg', hmem', hent'⟩ :=
    syncFold_spec now ws.entries ws [] 0 hreg0 hdirs
      (by intro e he u hu; simp at hu) hdist
  have hsync : sync_from_disk ws now = (ws', ws.entries.length) := by
    simp [sync_from_disk, hmem]
    rw [hfold]
    simp
  refine ⟨by simp [hsync], ?_, ?_⟩
  · simp only [hsync]
    simp [list_users, hreg', jGet]
  · intro e he pfs hprof
    refine ⟨[("learner_id", (jGet pfs "learner_id").getD (.str e.name)),
      ("name", (jGet pfs "name").getD (.str "Anonymous Learner")),
      ("email", (jGet pfs "email").getD .null),
      ("created_at", if jTruthy ((jGet pfs "created_at").getD .null)
        then (jGet pfs "created_at").getD .null else .str now)],
      by simp [mkRegUser, profObj, hprof], by simp [jGet], by simp [jGet],
      by simp [jGet]⟩

/-- Witness for the amended C5 at `freshWs` (N = 2). -/
theorem sync_from_disk_fresh_registry_witness :
    (sync_from_disk freshWs "t1").2 = freshWs.entries.length ∧
    list_users (sync_from_disk freshWs "t1").1 =
      .ok (.arr (freshWs.entries.map (mkRegUser "t1"))) ∧
    ∀ e ∈ freshWs.entries, ∀ pfs, e.profile = .content (.obj pfs) →
      ∃ ufs, mkRegUser "t1" e = .obj ufs ∧
        jGet ufs "learner_id" =
          some ((jGet pfs "learner_id").getD (.str e.name)) ∧
        jGet ufs "name" =
          some ((jGet pfs "name").getD (.str "Anonymous Learner")) ∧
        jGet ufs "email" = some ((jGet pfs "email").getD .null) :=
  sync_from_disk_fresh_registry freshWs "t1" rfl rfl
    (by
      intro e he
      simp [freshWs] at he
      rcases he with rfl | rfl
      · exact ⟨rfl, rfl, _, rfl⟩
      · exact ⟨rfl, rfl, _, rfl⟩)
    (by decide)
